import Mathlib

/-!
Verification development for the multi-tenant retail back-office API
(custom attribute subsystem and tenant-scoped query/filter engine).

The definitions below are a shallow embedding of the relevant route
handlers and ORM models:
  app/models/{employees,employee_labels,stores,custom_labels,products,business}.py
  app/routes/employees.py   (get_employees, get_employee, update_employee,
                             define_custom_label, get_label_values,
                             get_custom_field_labels)
  app/routes/stores.py      (create_store, get_stores, delete_store)
  app/routes/custom_labels.py (create/get/update custom labels, label names)
  app/routes/products.py    (add_products)

The relational store is modelled as lists of rows; SQLAlchemy `filter`
becomes `List.filter`, `first()` becomes `List.find?`, `distinct()` becomes
`List.dedup`, `order_by`/Python `sorted` become `List.insertionSort`, and the
ILIKE pattern `%v%` becomes case-insensitive substring containment (SQL
pattern metacharacters inside the filter value are not modelled).
Columns that no claim touches (timestamps, avatar URLs, hashed passwords,
monetary and inventory columns of products) are omitted; role gating
(`require_role`) and token resolution happen upstream of every handler and
are treated as the opaque authenticated-principal resolver of the spec.
-/

/-- Case-insensitive match helpers modelling the SQL `ILIKE` predicate with
a pattern of shape percent-value-percent. -/
def leadEq : List Char → List Char → Bool
  | [], _ => true
  | _ :: _, [] => false
  | a :: as, b :: bs => a == b && leadEq as bs

def hasSub (hay pat : List Char) : Bool :=
  match hay with
  | [] => pat.isEmpty
  | _ :: t => leadEq pat hay || hasSub t pat

def lowerChars (s : String) : List Char :=
  s.data.map Char.toLower

/-- Case-insensitive substring containment: `stored ILIKE '%pat%'`. -/
def ilikeSub (stored pat : String) : Bool :=
  hasSub (lowerChars stored) (lowerChars pat)

/-- `ILIKE` applied to a nullable column: NULL never matches. -/
def optIlikeSub (stored : Option String) (pat : String) : Bool :=
  match stored with
  | none => false
  | some s => ilikeSub s pat

/-- Python truthiness of an optional string (None and the empty string are
falsy). -/
def pyTruthy : Option String → Bool
  | none => false
  | some s => s ≠ ""

/-- Python `str.startswith`. -/
def pyStartsWith (s pfx : String) : Bool :=
  leadEq pfx.data s.data

/-- Left-to-right replacement of every non-overlapping occurrence of `pat`,
with enough fuel to scan the whole input; kernel-computable equivalent of
Python `str.replace` for a non-empty pattern. -/
def replaceFuel (pat rep : List Char) : Nat → List Char → List Char
  | _, [] => []
  | 0, s => s
  | fuel + 1, c :: rest =>
    if !pat.isEmpty && leadEq pat (c :: rest) then
      rep ++ replaceFuel pat rep fuel (List.drop pat.length (c :: rest))
    else
      c :: replaceFuel pat rep fuel rest

/-- Python `str.replace` (non-empty pattern). -/
def pyReplace (s pat rep : String) : String :=
  String.mk (replaceFuel pat.data rep.data s.data.length s.data)

def isSpaceChar (c : Char) : Bool :=
  c == ' ' || c == '\t' || c == '\n' || c == '\r'

/-- Python `str.strip` over the common ASCII whitespace. -/
def pyStrip (s : String) : String :=
  String.mk (((s.data.dropWhile isSpaceChar).reverse.dropWhile isSpaceChar).reverse)

def customPfx : String := "custom_"

def emptyStr : String := ""

/-! Groundwork: `toString` on `Nat` (i.e. `Nat.repr`) is injective.  The
embedding needs this because stores and products carry the tenant id as the
string `str(business_id)` while employees and labels carry the integer. -/

def digitVal (c : Char) : Nat := c.toNat - 48

def digitsVal (l : List Char) : Nat :=
  l.foldl (fun a c => 10 * a + digitVal c) 0

/-! Data model: one structure per ORM model, restricted to the columns the
claims interact with. -/

/-- Row of `employees` (app/models/employees.py).  `emp_id` and
`business_id` are generated by PostgreSQL sequences starting at 1000 and
20000, hence modelled as `Nat`. -/
structure Employee where
  emp_id : Nat
  business_id : Nat
  name : String
  email : String
  phone_number : String
  aadhar_number : Option String
  address : Option String
  city : Option String
  state : Option String
  country : Option String
  role : String
  joining_date : Option String
  store_id : Option Nat
  created_by : Option Nat
  updated_by : Option Nat
  deriving DecidableEq

/-- Row of `employee_labels` (app/models/employee_labels.py).  A template
record has `emp_id = none` and carries `label_values`; an instance record
has `emp_id = some e` and carries `label_value`. -/
structure EmployeeLabel where
  emp_id : Option Nat
  business_id : Nat
  label_name : String
  label_value : Option String
  label_values : Option (List String)
  deriving DecidableEq

/-- Row of `stores` (app/models/stores.py).  `business_id` is a string
foreign key to `business.business_id`. -/
structure Store where
  id : Nat
  business_id : String
  store_sequence : Nat
  store_name : String
  store_address : Option String
  store_city : Option String
  store_state : Option String
  store_country : Option String
  store_pincode : Option String
  deriving DecidableEq

/-- Row of `custom_labels` (app/models/custom_labels.py). -/
structure CustomLabel where
  id : Nat
  label_name : String
  label_values : List String
  label_type : String
  business_id : Nat
  deriving DecidableEq

/-- Row of `products` (app/models/products.py), restricted to the
identification columns used by the duplicate checks of `add_products`. -/
structure Products where
  id : Nat
  business_id : String
  productid : Option String
  productname : String
  barcode : String
  sku : Option String
  deriving DecidableEq

/-- Row of `business` (app/models/business.py). -/
structure Business where
  business_id : String
  business_name : String
  owner_name : String
  phone_number : String
  email : String
  deriving DecidableEq

/-- The relational store.  The `next_*` counters model the autoincrement
primary keys of the tables whose insert paths the claims exercise. -/
structure DB where
  employees : List Employee
  employee_labels : List EmployeeLabel
  stores : List Store
  custom_labels : List CustomLabel
  products : List Products
  businesses : List Business
  next_store_id : Nat
  next_product_id : Nat
  next_custom_label_id : Nat
  deriving DecidableEq

/-- Error taxonomy of the handlers (HTTP status plus message, where a claim
cares about neither beyond the kind). -/
inductive ApiError where
  | badRequest (msg : String)
  | notFound
  | forbidden
  | conflict
  | unprocessable
  deriving DecidableEq

/-! Operations of app/routes/employees.py. -/

/-- One element of the JSON `filters` array of the list endpoints; keys may
be absent, `None` or empty, in which case the criterion is skipped. -/
structure FilterItem where
  field : Option String
  value : Option String
  deriving DecidableEq

/-- The distinct `emp_id` column values of `employee_labels` rows of the
tenant whose `label_name` equals `name` and whose `label_value` contains
`pat` case-insensitively (routes/employees.py lines 385-391). -/
def customMatchingIds (db : DB) (bid : Nat) (name pat : String) : List (Option Nat) :=
  ((db.employee_labels.filter (fun lb =>
      lb.business_id == bid && lb.label_name == name && optIlikeSub lb.label_value pat)).map
    (fun lb => lb.emp_id)).dedup

/-- The row predicate contributed by one `query.filter` step of
`get_employees` for a criterion `(fld, pat)` (routes/employees.py lines
372-425).  The `emp_id` criterion applies only when the value is numeric
(Python `isdigit`); an unknown field name adds no predicate, i.e. the
constant true.  The empty-custom-match branch of the source conjoins
`Employee.emp_id == -1`, over row ids drawn from a positive sequence. -/
def empCriterion (db : DB) (bid : Nat) (fld pat : String) (e : Employee) : Bool :=
  if pyStartsWith fld customPfx then
    if (customMatchingIds db bid (pyReplace fld customPfx emptyStr) pat).isEmpty then
      decide ((e.emp_id : Int) = -1)
    else
      (customMatchingIds db bid (pyReplace fld customPfx emptyStr) pat).contains (some e.emp_id)
  else if fld == "emp_id" then
    match pat.toNat? with
    | some k => e.emp_id == k
    | none => true
  else if fld == "name" then ilikeSub e.name pat
  else if fld == "email" then ilikeSub e.email pat
  else if fld == "phone_number" then ilikeSub e.phone_number pat
  else if fld == "aadhar_number" then optIlikeSub e.aadhar_number pat
  else if fld == "city" then optIlikeSub e.city pat
  else if fld == "state" then optIlikeSub e.state pat
  else if fld == "country" then optIlikeSub e.country pat
  else if fld == "role" then ilikeSub e.role pat
  else if fld == "store_id" then
    db.stores.any (fun s => e.store_id == some s.id && ilikeSub s.store_name pat)
  else true

/-- One `query.filter` step of `get_employees`: restriction of the working
row set by the criterion predicate. -/
def applyEmployeeFilter (db : DB) (bid : Nat) (fld pat : String) (l : List Employee) :
    List Employee :=
  l.filter (empCriterion db bid fld pat)

/-- Conjunction of all criteria of the `filters` array, applied in order;
criteria with a missing or empty field or value are skipped. -/
def applyEmployeeFilters (db : DB) (bid : Nat) : List FilterItem → List Employee → List Employee
  | [], l => l
  | f :: fs, l =>
    if pyTruthy f.field && pyTruthy f.value then
      applyEmployeeFilters db bid fs
        (applyEmployeeFilter db bid (f.field.getD emptyStr) (f.value.getD emptyStr) l)
    else
      applyEmployeeFilters db bid fs l

/-- Employee response object shared by the list endpoint (bulk hydration)
and the single-employee endpoint; both produce the same per-entity record. -/
structure EmployeeItem where
  emp_id : Nat
  business_id : Nat
  business_id_display : String
  user_id : String
  name : String
  email : String
  phone_number : String
  aadhar_number : Option String
  address : Option String
  city : Option String
  state : Option String
  country : Option String
  role : String
  joining_date : Option String
  custom_fields : Option (List (String × Option String))
  store_id : Option Nat
  store_id_display : Option String
  store_name : Option String
  created_by : Option Nat
  updated_by : Option Nat
  deriving DecidableEq

/-- The custom-field pairs of one employee: the instance rows of the
`employee_labels` table for `(eid, bid)` in table order. -/
def employeeCustomFields (db : DB) (bid : Nat) (eid : Nat) : List (String × Option String) :=
  (db.employee_labels.filter (fun lb => lb.emp_id == some eid && lb.business_id == bid)).map
    (fun lb => (lb.label_name, lb.label_value))

/-- Store lookup for response hydration.  A zero or missing `store_id` is
falsy in Python and yields no store details. -/
def storeFor (db : DB) (sid : Option Nat) : Option Store :=
  match sid with
  | none => none
  | some i => if i == 0 then none else db.stores.find? (fun s => s.id == i)

def buildEmployeeItem (db : DB) (bid : Nat) (e : Employee) : EmployeeItem :=
  let st := storeFor db e.store_id
  let cfs := employeeCustomFields db bid e.emp_id
  { emp_id := e.emp_id
    business_id := e.business_id
    business_id_display := "BUS" ++ toString e.business_id
    user_id := "USR" ++ toString e.emp_id
    name := e.name
    email := e.email
    phone_number := e.phone_number
    aadhar_number := e.aadhar_number
    address := e.address
    city := e.city
    state := e.state
    country := e.country
    role := e.role
    joining_date := e.joining_date
    custom_fields := if cfs.isEmpty then none else some cfs
    store_id := e.store_id
    store_id_display := st.map (fun s => "STR" ++ toString s.store_sequence)
    store_name := st.map (fun s => s.store_name)
    created_by := e.created_by
    updated_by := e.updated_by }

structure EmployeePaginatedResponse where
  items : List EmployeeItem
  total : Nat
  page : Nat
  page_size : Nat
  deriving DecidableEq

/-- GET / of routes/employees.py (`get_employees`), multi-filter path.  The
base query is scoped to the business of the authenticated caller;
pagination and bulk hydration follow the source (lines 343-563).  The
legacy single-filter query parameters apply the same per-criterion logic to
exactly one criterion and are subsumed by a one-element `filters` list. -/
def get_employees (db : DB) (caller : Employee) (skip limit : Nat)
    (filters : List FilterItem) : EmployeePaginatedResponse :=
  let bid := caller.business_id
  let base := db.employees.filter (fun e => e.business_id == bid)
  let filtered := applyEmployeeFilters db bid filters base
  let total := filtered.length
  let page := (filtered.drop skip).take limit
  { items := page.map (fun e => buildEmployeeItem db bid e)
    total := total
    page := if limit > 0 then skip / limit else 0
    page_size := limit }

/-- GET /custom-fields/labels of routes/employees.py: distinct label names
of the tenant in the `employee_labels` table, sorted. -/
def get_custom_field_labels (db : DB) (caller : Employee) : List String :=
  List.insertionSort (· ≤ ·)
    (((db.employee_labels.filter (fun lb => lb.business_id == caller.business_id)).map
      (fun lb => lb.label_name)).dedup)

/-- The template-row predicate of `(bid, label_name)`: row of the tenant
with that name and a NULL `emp_id`, as used by both the template query and
the in-place template update. -/
def isTemplateFor (bid : Nat) (name : String) (lb : EmployeeLabel) : Bool :=
  lb.business_id == bid && lb.label_name == name && lb.emp_id == none

/-- The template record of `(bid, label_name)`: first matching
`employee_labels` row. -/
def findTemplate (db : DB) (bid : Nat) (label_name : String) : Option EmployeeLabel :=
  db.employee_labels.find? (isTemplateFor bid label_name)

/-- Observation helper: the value array stored on the template record of
`(bid, name)`, or the empty array when none exists. -/
def storedTemplateValues (db : DB) (bid : Nat) (name : String) : List String :=
  match findTemplate db bid name with
  | some t => t.label_values.getD []
  | none => []

/-- GET /custom-fields/values/(label_name) of routes/employees.py
(`get_label_values`): union of the template value array and the distinct
non-null instance values, deduplicated and sorted. -/
def get_label_values (db : DB) (caller : Employee) (label_name : String) : List String :=
  let bid := caller.business_id
  let template_values :=
    match findTemplate db bid label_name with
    | some t => t.label_values.getD []
    | none => []
  let employee_values :=
    ((db.employee_labels.filter (fun lb =>
        lb.business_id == bid && lb.label_name == label_name &&
        lb.emp_id.isSome && lb.label_value.isSome)).map
      (fun lb => lb.label_value.getD emptyStr)).dedup
  List.insertionSort (· ≤ ·) ((template_values ++ employee_values).dedup)

/-- Response of POST /custom-fields/define-label.  The create branch omits
`new_values_added` (hence the `Option`); the merge branch reports the
Python difference of lengths. -/
structure DefineLabelOk where
  label_name : String
  new_values_added : Option Int
  total_values : Nat
  deriving DecidableEq

/-- Replaces the `label_values` of the first template row matching
`(bid, name, emp_id IS NULL)`, modelling the in-place ORM row update of the
merge branch of `define_custom_label`. -/
def updateFirstTemplate (bid : Nat) (name : String) (newVals : List String) :
    List EmployeeLabel → List EmployeeLabel
  | [] => []
  | lb :: rest =>
    if isTemplateFor bid name lb then
      { lb with label_values := some newVals } :: rest
    else
      lb :: updateFirstTemplate bid name newVals rest

/-- POST /custom-fields/define-label of routes/employees.py
(`define_custom_label`): validates, then either creates a template record
or merges the new values into the existing template by set union, reporting
the number of net-new values (lines 614-689).  Python set deduplication is
modelled with `List.dedup` (set semantics; element order of a Python set is
unspecified). -/
def define_custom_label (db : DB) (caller : Employee) (labelNameRaw : String)
    (values : List String) : DB × Except ApiError DefineLabelOk :=
  let label_name := pyStrip labelNameRaw
  if label_name == emptyStr then
    (db, .error (.badRequest "label_name is required"))
  else if values.isEmpty then
    (db, .error (.badRequest "values must be a non-empty array"))
  else
    let valid_values := ((values.map (fun v => pyStrip v)).filter (fun v => v ≠ emptyStr)).dedup
    if valid_values.isEmpty then
      (db, .error (.badRequest "At least one valid value is required"))
    else
      let bid := caller.business_id
      match findTemplate db bid label_name with
      | some tmpl =>
        let current_values := tmpl.label_values.getD []
        let merged_values := (current_values ++ valid_values).dedup
        let db' := { db with
          employee_labels := updateFirstTemplate bid label_name merged_values db.employee_labels }
        (db', .ok { label_name := label_name
                    new_values_added := some ((merged_values.length : Int) - current_values.length)
                    total_values := merged_values.length })
      | none =>
        let tmpl : EmployeeLabel :=
          { emp_id := none
            business_id := bid
            label_name := label_name
            label_value := none
            label_values := some valid_values }
        ({ db with employee_labels := db.employee_labels ++ [tmpl] },
         .ok { label_name := label_name
               new_values_added := none
               total_values := valid_values.length })

/-- GET /(emp_id) of routes/employees.py (`get_employee`): the employee is
looked up by id scoped to the business of the caller; the custom fields and
store details are loaded per entity and produce the same record shape as the
list endpoint (lines 854-910). -/
def get_employee (db : DB) (caller : Employee) (eid : Nat) : Except ApiError EmployeeItem :=
  match db.employees.find? (fun e => e.emp_id == eid && e.business_id == caller.business_id) with
  | none => .error .notFound
  | some e => .ok (buildEmployeeItem db e.business_id e)

def elevatedRoles : List String := ["owner", "admin", "manager"]

/-- The instance rows inserted for one employee by the custom-fields
replacement step of `update_employee`. -/
def mkCFLabels (eid bid : Nat) (pairs : List (String × Option String)) : List EmployeeLabel :=
  pairs.map (fun p =>
    { emp_id := some eid
      business_id := bid
      label_name := p.1
      label_value := p.2
      label_values := none })

/-- PUT /(emp_id) of routes/employees.py (`update_employee`) for a request
whose only provided field is `custom_fields` (lines 913-989): tenant-scoped
lookup, permission check, then — when `custom_fields` is provided — delete
of every `employee_labels` row with that `emp_id` followed by insertion of
the supplied pairs with the business id of the target row.  The scalar
column loop touches no label state and updates nothing for this payload;
each supplied JSON object is modelled as its (label_name, label_value)
pairs in iteration order. -/
def update_employee_custom_fields (db : DB) (caller : Employee) (eid : Nat)
    (cf : Option (List (String × Option String))) : DB × Except ApiError Unit :=
  match db.employees.find? (fun e => e.emp_id == eid && e.business_id == caller.business_id) with
  | none => (db, .error .notFound)
  | some target =>
    if caller.emp_id ≠ eid && ¬ (elevatedRoles.contains caller.role) then
      (db, .error .forbidden)
    else
      match cf with
      | none => (db, .ok ())
      | some pairs =>
        let kept := db.employee_labels.filter (fun lb => lb.emp_id ≠ some eid)
        let newLabels := mkCFLabels eid target.business_id pairs
        ({ db with employee_labels := kept ++ newLabels }, .ok ())

/-! Operations of app/routes/stores.py. -/

structure StoreCreatePayload where
  store_name : String
  store_address : Option String
  store_city : Option String
  store_state : Option String
  store_country : Option String
  store_pincode : Option String
  deriving DecidableEq

/-- Store response record of routes/stores.py with the display id
`STR` + sequence. -/
structure StoreItem where
  id : Nat
  business_id : String
  store_id : String
  store_sequence : Nat
  store_name : String
  store_address : Option String
  store_city : Option String
  store_state : Option String
  store_country : Option String
  store_pincode : Option String
  deriving DecidableEq

def buildStoreItem (s : Store) : StoreItem :=
  { id := s.id
    business_id := s.business_id
    store_id := "STR" ++ toString s.store_sequence
    store_sequence := s.store_sequence
    store_name := s.store_name
    store_address := s.store_address
    store_city := s.store_city
    store_state := s.store_state
    store_country := s.store_country
    store_pincode := s.store_pincode }

/-- POST / of routes/stores.py (`create_store`): validates the name,
verifies the Business row, computes the sequence as count-of-existing plus
one, and inserts; the per-business unique constraint on the store name
surfaces as a 409 conflict without inserting (lines 18-104). -/
def create_store (db : DB) (caller : Employee) (p : StoreCreatePayload) :
    DB × Except ApiError StoreItem :=
  if pyStrip p.store_name == emptyStr then
    (db, .error (.badRequest "Store name is required and cannot be empty."))
  else
    let ubid := toString caller.business_id
    match db.businesses.find? (fun b => b.business_id == ubid) with
    | none => (db, .error .notFound)
    | some _ =>
      if db.stores.any (fun s => s.business_id == ubid && s.store_name == p.store_name) then
        (db, .error .conflict)
      else
        let next_sequence := (db.stores.filter (fun s => s.business_id == ubid)).length + 1
        let st : Store :=
          { id := db.next_store_id
            business_id := ubid
            store_sequence := next_sequence
            store_name := p.store_name
            store_address := p.store_address
            store_city := p.store_city
            store_state := p.store_state
            store_country := p.store_country
            store_pincode := p.store_pincode }
        ({ db with stores := db.stores ++ [st], next_store_id := db.next_store_id + 1 },
         .ok (buildStoreItem st))

/-- The row predicate contributed by one `query.filter` step of
`get_stores` (routes/stores.py lines 134-151); an unknown field name adds
no predicate. -/
def storeCriterion (fld pat : String) (s : Store) : Bool :=
  if fld == "store_name" then ilikeSub s.store_name pat
  else if fld == "store_city" then optIlikeSub s.store_city pat
  else if fld == "store_state" then optIlikeSub s.store_state pat
  else if fld == "store_country" then optIlikeSub s.store_country pat
  else if fld == "store_pincode" then optIlikeSub s.store_pincode pat
  else true

/-- One `query.filter` step of `get_stores`. -/
def applyStoreFilter (fld pat : String) (l : List Store) : List Store :=
  l.filter (storeCriterion fld pat)

def applyStoreFilters : List FilterItem → List Store → List Store
  | [], l => l
  | f :: fs, l =>
    if pyTruthy f.field && pyTruthy f.value then
      applyStoreFilters fs (applyStoreFilter (f.field.getD emptyStr) (f.value.getD emptyStr) l)
    else
      applyStoreFilters fs l

structure StoreListResponse where
  items : List StoreItem
  total : Nat
  skip : Nat
  limit : Nat
  deriving DecidableEq

/-- GET / of routes/stores.py (`get_stores`): scoped to the business of the
caller, filtered, counted, ordered by sequence and paginated
(lines 106-191). -/
def get_stores (db : DB) (caller : Employee) (skip limit : Nat)
    (filters : List FilterItem) : StoreListResponse :=
  let base := db.stores.filter (fun s => s.business_id == toString caller.business_id)
  let filtered := applyStoreFilters filters base
  let total := filtered.length
  let ordered := List.insertionSort (fun a b => a.store_sequence ≤ b.store_sequence) filtered
  { items := ((ordered.drop skip).take limit).map buildStoreItem
    total := total
    skip := skip
    limit := limit }

/-- DELETE /(store_id) of routes/stores.py (`delete_store`): tenant-scoped
lookup by row id, then deletion of that row (lines 313-347). -/
def delete_store (db : DB) (caller : Employee) (sid : Nat) : DB × Except ApiError Unit :=
  match db.stores.find? (fun s =>
      s.id == sid && s.business_id == toString caller.business_id) with
  | none => (db, .error .notFound)
  | some st => ({ db with stores := db.stores.filter (fun s => s.id ≠ st.id) }, .ok ())

/-! Operations of app/routes/custom_labels.py. -/

/-- Payload of POST /custom-labels; the schema requires a non-empty name
and at least one value (pydantic `min_length=1`, `min_items=1`). -/
structure CustomLabelCreatePayload where
  label_name : String
  label_values : List String
  deriving DecidableEq

/-- POST /custom-labels (`create_custom_label`): rejects a duplicate name
within the business, otherwise inserts with the default
`label_type = employee` (lines 19-60). -/
def create_custom_label (db : DB) (caller : Employee) (p : CustomLabelCreatePayload) :
    DB × Except ApiError CustomLabel :=
  if p.label_name == emptyStr || p.label_values.isEmpty then
    (db, .error .unprocessable)
  else
    let bid := caller.business_id
    if (db.custom_labels.find? (fun l =>
        l.business_id == bid && l.label_name == p.label_name)).isSome then
      (db, .error .conflict)
    else
      let lab : CustomLabel :=
        { id := db.next_custom_label_id
          label_name := p.label_name
          label_values := p.label_values
          label_type := "employee"
          business_id := bid }
      ({ db with custom_labels := db.custom_labels ++ [lab]
                 next_custom_label_id := db.next_custom_label_id + 1 },
       .ok lab)

/-- GET /custom-labels (`get_custom_labels`): all labels of the business of
the caller, ordered by name (lines 63-76). -/
def get_custom_labels (db : DB) (caller : Employee) : List CustomLabel :=
  List.insertionSort (fun a b => a.label_name ≤ b.label_name)
    (db.custom_labels.filter (fun l => l.business_id == caller.business_id))

/-- Payload of PUT /custom-labels/(label_id); per the schema,
`label_values` is required with at least one item, `label_name` is optional
but non-empty when present. -/
structure CustomLabelUpdatePayload where
  label_name : Option String
  label_values : List String
  deriving DecidableEq

/-- Applies `f` to the first row matching `(lid, bid)`, modelling the ORM
in-place row update of `update_custom_label`. -/
def updateFirstCustomLabel (lid bid : Nat) (f : CustomLabel → CustomLabel) :
    List CustomLabel → List CustomLabel
  | [] => []
  | l :: rest =>
    if l.id == lid && l.business_id == bid then f l :: rest
    else l :: updateFirstCustomLabel lid bid f rest

/-- PUT /custom-labels/(label_id) (`update_custom_label`): tenant-scoped
lookup by row id, optional rename guarded by a same-business conflict
check, and replacement (not merge) of the value array — each mutation
applied only when the corresponding payload field is truthy in Python
(lines 97-150).  The pydantic schema rejects a request whose
`label_values` is absent or empty before the handler runs. -/
def update_custom_label (db : DB) (caller : Employee) (lid : Nat)
    (p : CustomLabelUpdatePayload) : DB × Except ApiError CustomLabel :=
  if p.label_values.isEmpty || p.label_name == some emptyStr then
    (db, .error .unprocessable)
  else
    let bid := caller.business_id
    match db.custom_labels.find? (fun l => l.id == lid && l.business_id == bid) with
    | none => (db, .error .notFound)
    | some label =>
      if pyTruthy p.label_name &&
          (db.custom_labels.find? (fun l =>
            l.business_id == bid && some l.label_name == p.label_name && l.id ≠ lid)).isSome then
        (db, .error .conflict)
      else
        let newName := if pyTruthy p.label_name then p.label_name.getD label.label_name
                       else label.label_name
        let newVals := if p.label_values.isEmpty then label.label_values else p.label_values
        let updated := { label with label_name := newName, label_values := newVals }
        let tableAfter := updateFirstCustomLabel lid bid
          (fun l => { l with label_name := newName, label_values := newVals }) db.custom_labels
        ({ db with custom_labels := tableAfter }, .ok updated)

/-- GET /custom-labels-names (`get_custom_label_names`): the label names of
the business of the caller from the `custom_labels` table, ordered by name
(lines 185-198). -/
def get_custom_label_names (db : DB) (caller : Employee) : List String :=
  (List.insertionSort (fun a b => a.label_name ≤ b.label_name)
    (db.custom_labels.filter (fun l => l.business_id == caller.business_id))).map
    (fun l => l.label_name)

/-! Operations of app/routes/products.py. -/

/-- Payload item of POST /addProducts restricted to the identification
columns the duplicate checks read; image handling goes to the external
storage collaborator and is out of scope per the spec. -/
structure ProductItem where
  productname : String
  barcode : String
  sku : Option String
  deriving DecidableEq

/-- One entry of the `validation_errors` array of the 400 response of
`add_products`; `error_type` models the JSON key `type`. -/
structure ProductErrorEntry where
  product_index : Nat
  field : String
  value : String
  error_type : String
  deriving DecidableEq

/-- Body of the 400 response of `add_products` (lines 350-361). -/
structure ProductBatchFailure where
  successful_count : Nat
  failed_count : Nat
  validation_errors : List ProductErrorEntry
  deriving DecidableEq

inductive AddProductsResult where
  | created (ps : List Products)
  | emptyRequest
  | validationFailed (e : ProductBatchFailure)
  deriving DecidableEq

def duplicateEntryStr : String := "duplicate_entry"

def barcodeFieldStr : String := "barcode"

def skuFieldStr : String := "sku"

/-- The per-item loop of `add_products` (lines 168-347): each item is
checked against the products visible to the transaction — the table plus
the rows flushed for earlier items of the same batch — first by barcode,
then by SKU when one is supplied (Python truthiness: an empty SKU string
skips the check); a failing item is recorded in `errors` and skipped, a
passing item is flushed with the next autoincrement id and the display id
`PRD` + id. -/
def addProductsLoop (bid : String) :
    List ProductItem → Nat → List Products → List Products → List ProductErrorEntry → Nat →
    List Products × List Products × List ProductErrorEntry × Nat
  | [], _, table, created, errors, nid => (table, created, errors, nid)
  | item :: rest, idx, table, created, errors, nid =>
    if table.any (fun p => p.barcode == item.barcode) then
      addProductsLoop bid rest (idx + 1) table created
        (errors ++ [⟨idx, barcodeFieldStr, item.barcode, duplicateEntryStr⟩]) nid
    else if pyTruthy item.sku && table.any (fun p => p.sku == item.sku) then
      addProductsLoop bid rest (idx + 1) table created
        (errors ++ [⟨idx, skuFieldStr, item.sku.getD emptyStr, duplicateEntryStr⟩]) nid
    else
      let prod : Products :=
        { id := nid
          business_id := bid
          productid := some ("PRD" ++ toString nid)
          productname := item.productname
          barcode := item.barcode
          sku := item.sku }
      addProductsLoop bid rest (idx + 1) (table ++ [prod]) (created ++ [prod]) errors (nid + 1)

/-- POST /addProducts (`add_products`): an empty batch is rejected up
front; otherwise the loop above runs and, when any error was collected, the
transaction is rolled back — the store is left untouched, including the
already-flushed valid items — and a 400 with the per-item
`validation_errors` breakdown is returned; only an error-free batch is
committed (lines 349-371). -/
def add_products (db : DB) (caller : Employee) (items : List ProductItem) :
    DB × AddProductsResult :=
  if items.isEmpty then
    (db, .emptyRequest)
  else
    match addProductsLoop (toString caller.business_id) items 0 db.products [] []
        db.next_product_id with
    | (table, created, errors, nid) =>
      if errors.isEmpty then
        ({ db with products := table, next_product_id := nid }, .created created)
      else
        (db, .validationFailed
          { successful_count := created.length
            failed_count := errors.length
            validation_errors := errors })

/-! Sample rows for concrete evaluations. -/

/-- An employee row with the given ids and role and neutral scalar
columns. -/
def mkEmployee (eid bid : Nat) (role : String) : Employee :=
  { emp_id := eid
    business_id := bid
    name := "Sample"
    email := "sample@example.com"
    phone_number := "1234567890"
    aadhar_number := none
    address := none
    city := none
    state := none
    country := none
    role := role
    joining_date := none
    store_id := none
    created_by := none
    updated_by := none }

/-- The empty relational store with autoincrement counters at 1. -/
def emptyDB : DB :=
  { employees := []
    employee_labels := []
    stores := []
    custom_labels := []
    products := []
    businesses := []
    next_store_id := 1
    next_product_id := 1
    next_custom_label_id := 1 }

/-- A store-creation payload carrying only a name. -/
def mkStorePayload (name : String) : StoreCreatePayload :=
  { store_name := name
    store_address := none
    store_city := none
    store_state := none
    store_country := none
    store_pincode := none }

/-- A business row for the given tenant id string. -/
def mkBusiness (bid : String) : Business :=
  { business_id := bid
    business_name := "Biz"
    owner_name := "Owner"
    phone_number := "1234567890"
    email := "owner@example.com" }

/-- A store row with the given id, tenant, sequence and name. -/
def mkStore (sid : Nat) (bid : String) (seq : Nat) (name : String) : Store :=
  { id := sid
    business_id := bid
    store_sequence := seq
    store_name := name
    store_address := none
    store_city := none
    store_state := none
    store_country := none
    store_pincode := none }

/-- An instance row of `employee_labels`. -/
def mkInstanceLabel (eid bid : Nat) (name value : String) : EmployeeLabel :=
  { emp_id := some eid
    business_id := bid
    label_name := name
    label_value := some value
    label_values := none }

/-- The owner of tenant 20000 in the sample data. -/
def callerA : Employee := mkEmployee 1000 20000 "owner"

/-- The owner of tenant 20001 in the sample data. -/
def callerB : Employee := mkEmployee 1001 20001 "owner"

/-- Sample store: tenant 20000 owns one employee with one custom field, one
store and one product-side custom label; tenant 20001 owns only its owner
row. -/
def dbIso : DB :=
  { emptyDB with
    employees := [callerA, callerB]
    employee_labels := [mkInstanceLabel 1000 20000 "Department" "Sales"]
    stores := [mkStore 1 "20000" 1 "Downtown"]
    custom_labels := [{ id := 1
                        label_name := "Size"
                        label_values := ["XL", "L"]
                        label_type := "employee"
                        business_id := 20000 }]
    businesses := [mkBusiness "20000", mkBusiness "20001"]
    next_store_id := 2
    next_custom_label_id := 2 }

/-! Helper lemmas. -/

theorem toDigitsCore_append (fuel : Nat) : ∀ (n : Nat) (ds : List Char),
    Nat.toDigitsCore 10 fuel n ds = Nat.toDigitsCore 10 fuel n [] ++ ds := by
  induction fuel with
  | zero => intro n ds; simp [Nat.toDigitsCore]
  | succ fuel ih =>
    intro n ds
    simp only [Nat.toDigitsCore]
    by_cases h : n / 10 = 0
    · simp [h]
    · simp only [if_neg h]
      rw [ih (n / 10) (Nat.digitChar (n % 10) :: ds), ih (n / 10) [Nat.digitChar (n % 10)]]
      simp

theorem digitVal_digitChar (d : Nat) (h : d < 10) : digitVal (Nat.digitChar d) = d := by
  interval_cases d <;> decide

theorem digitsVal_toDigitsCore (fuel : Nat) : ∀ n : Nat, n < 10 ^ fuel →
    digitsVal (Nat.toDigitsCore 10 fuel n []) = n := by
  induction fuel with
  | zero =>
    intro n hn
    simp only [pow_zero, Nat.lt_one_iff] at hn
    subst hn
    simp [Nat.toDigitsCore, digitsVal]
  | succ fuel ih =>
    intro n hn
    simp only [Nat.toDigitsCore]
    by_cases h : n / 10 = 0
    · have hlt : n < 10 := by omega
      simp [h, digitsVal, Nat.mod_eq_of_lt hlt, digitVal_digitChar n hlt]
    · simp only [if_neg h]
      rw [toDigitsCore_append]
      have hdiv : n / 10 < 10 ^ fuel := by
        rw [Nat.div_lt_iff_lt_mul (by norm_num : 0 < 10)]
        calc n < 10 ^ (fuel + 1) := hn
        _ = 10 ^ fuel * 10 := by ring
      have hv := ih (n / 10) hdiv
      simp only [digitsVal] at hv ⊢
      rw [List.foldl_append, hv]
      simp [digitVal_digitChar (n % 10) (Nat.mod_lt n (by norm_num))]
      omega

theorem nat_lt_ten_pow (n : Nat) : n < 10 ^ (n + 1) := by
  induction n with
  | zero => norm_num
  | succ n ih =>
    have h1 : 1 ≤ 10 ^ (n + 1) := Nat.one_le_pow _ _ (by norm_num)
    have h2 : 10 ^ (n + 2) = 10 ^ (n + 1) * 10 := pow_succ 10 (n + 1)
    omega

theorem natRepr_injective : Function.Injective Nat.repr := by
  intro m n h
  have hm : digitsVal (Nat.toDigits 10 m) = m :=
    digitsVal_toDigitsCore (m + 1) m (nat_lt_ten_pow m)
  have hn : digitsVal (Nat.toDigits 10 n) = n :=
    digitsVal_toDigitsCore (n + 1) n (nat_lt_ten_pow n)
  have hlist : Nat.toDigits 10 m = Nat.toDigits 10 n := by
    have := congrArg String.data h
    simpa [Nat.repr, List.asString] using this
  rw [← hm, ← hn, hlist]

theorem natToString_injective (m n : Nat) (h : toString m = toString n) : m = n :=
  natRepr_injective h

theorem applyEmployeeFilter_subset (db : DB) (bid : Nat) (fld pat : String)
    (l : List Employee) : ∀ e ∈ applyEmployeeFilter db bid fld pat l, e ∈ l := by
  intro e he
  exact List.mem_of_mem_filter he

theorem applyEmployeeFilters_subset (db : DB) (bid : Nat) :
    ∀ (fs : List FilterItem) (l : List Employee),
      ∀ e ∈ applyEmployeeFilters db bid fs l, e ∈ l := by
  intro fs
  induction fs with
  | nil =>
    intro l e he
    simpa [applyEmployeeFilters] using he
  | cons f fs ih =>
    intro l e he
    simp only [applyEmployeeFilters] at he
    split at he
    · exact applyEmployeeFilter_subset db bid _ _ l e (ih _ e he)
    · exact ih l e he

theorem applyEmployeeFilter_nil (db : DB) (bid : Nat) (fld pat : String) :
    applyEmployeeFilter db bid fld pat [] = [] :=
  rfl

theorem applyEmployeeFilters_nil (db : DB) (bid : Nat) (fs : List FilterItem) :
    applyEmployeeFilters db bid fs [] = [] := by
  induction fs with
  | nil => simp [applyEmployeeFilters]
  | cons f fs ih =>
    simp only [applyEmployeeFilters]
    split
    · rw [applyEmployeeFilter_nil]
      exact ih
    · exact ih

theorem customMatchingIds_all_none (db : DB) (bid : Nat) (name pat : String)
    (H : ∀ lb ∈ db.employee_labels, lb.business_id = bid → lb.label_name = name →
      lb.emp_id.isSome → optIlikeSub lb.label_value pat = false) :
    ∀ x ∈ customMatchingIds db bid name pat, x = none := by
  intro x hx
  unfold customMatchingIds at hx
  rw [List.mem_dedup] at hx
  obtain ⟨lb, hlb, heq⟩ := List.mem_map.mp hx
  obtain ⟨hmem, hcond⟩ := List.mem_filter.mp hlb
  simp only [Bool.and_eq_true, beq_iff_eq] at hcond
  obtain ⟨⟨hbid, hname⟩, hmatch⟩ := hcond
  cases hx' : lb.emp_id with
  | none => rw [← heq, hx']
  | some i =>
    have := H lb hmem hbid hname (by rw [hx']; rfl)
    rw [this] at hmatch
    cases hmatch

theorem customFilter_annihilates (db : DB) (bid : Nat) (fld pat : String)
    (hpfx : pyStartsWith fld customPfx = true)
    (H : ∀ lb ∈ db.employee_labels, lb.business_id = bid →
      lb.label_name = pyReplace fld customPfx emptyStr → lb.emp_id.isSome →
      optIlikeSub lb.label_value pat = false) :
    ∀ l, applyEmployeeFilter db bid fld pat l = [] := by
  intro l
  have hnone := customMatchingIds_all_none db bid (pyReplace fld customPfx emptyStr) pat H
  have hcrit : ∀ e : Employee, empCriterion db bid fld pat e = false := by
    intro e
    unfold empCriterion
    rw [if_pos hpfx]
    split
    · simp
    · simp only [List.contains, List.elem_eq_mem, decide_eq_false_iff_not]
      intro hin
      exact Option.noConfusion (hnone _ hin)
  unfold applyEmployeeFilter
  apply List.filter_eq_nil_iff.mpr
  intro e _
  rw [hcrit e]
  simp

theorem applyEmployeeFilters_annihilated (db : DB) (bid : Nat) (f : FilterItem)
    (hft : pyTruthy f.field = true) (hvt : pyTruthy f.value = true)
    (hkill : ∀ l, applyEmployeeFilter db bid (f.field.getD emptyStr) (f.value.getD emptyStr) l = []) :
    ∀ (fs : List FilterItem), f ∈ fs → ∀ l, applyEmployeeFilters db bid fs l = [] := by
  intro fs
  induction fs with
  | nil => intro hf; cases hf
  | cons g gs ih =>
    intro hf l
    simp only [applyEmployeeFilters]
    rcases List.mem_cons.mp hf with rfl | hmem
    · rw [if_pos (by simp [hft, hvt]), hkill]
      exact applyEmployeeFilters_nil db bid gs
    · split
      · exact ih hmem _
      · exact ih hmem _

theorem applyStoreFilters_subset :
    ∀ (fs : List FilterItem) (l : List Store), ∀ s ∈ applyStoreFilters fs l, s ∈ l := by
  intro fs
  induction fs with
  | nil =>
    intro l s hs
    simpa [applyStoreFilters] using hs
  | cons f fs ih =>
    intro l s hs
    simp only [applyStoreFilters] at hs
    split at hs
    · exact List.mem_of_mem_filter (ih _ s hs)
    · exact ih l s hs

/-! Claim theorems. -/

/-- C2: for every employee-filter request containing a custom-field
criterion, if no instance row of the tenant of the caller carries that
label name with a value case-insensitively containing the supplied
substring, then the overall result set is empty — the source conjoins the
unsatisfiable predicate `emp_id == -1` instead of ignoring the criterion —
regardless of every other criterion of the same request. -/
theorem C2_custom_filter_zero_matches (db : DB) (caller : Employee)
    (skip limit : Nat) (filters : List FilterItem) (fld pat : String)
    (hmem : (⟨some fld, some pat⟩ : FilterItem) ∈ filters)
    (hpfx : pyStartsWith fld customPfx = true)
    (hfld : fld ≠ "") (hpat : pat ≠ "")
    (H : ∀ lb ∈ db.employee_labels, lb.business_id = caller.business_id →
      lb.label_name = pyReplace fld customPfx emptyStr → lb.emp_id.isSome →
      optIlikeSub lb.label_value pat = false) :
    (get_employees db caller skip limit filters).items = [] ∧
    (get_employees db caller skip limit filters).total = 0 := by
  have hkill := customFilter_annihilates db caller.business_id fld pat hpfx H
  have hz := applyEmployeeFilters_annihilated db caller.business_id
    ⟨some fld, some pat⟩ (by simp [pyTruthy, hfld]) (by simp [pyTruthy, hpat])
    hkill filters hmem
  constructor
  · simp [get_employees, hz]
  · simp [get_employees, hz]

/-- Witness for C2 on concrete data: tenant 20000 stores the instance
Department = Sales for employee 1000, which does not contain Zebra, so the
filter request returns no employees at all. -/
theorem C2_witness :
    (get_employees dbIso callerA 0 100 [⟨some "custom_Department", some "Zebra"⟩]).items = [] ∧
    (get_employees dbIso callerA 0 100 [⟨some "custom_Department", some "Zebra"⟩]).total = 0 :=
  C2_custom_filter_zero_matches dbIso callerA 0 100
    [⟨some "custom_Department", some "Zebra"⟩] "custom_Department" "Zebra"
    (by decide) (by decide) (by decide) (by decide) (by decide)

/-- C1: for distinct tenants T1 and T2, no employee, store or custom label
returned by the list/filter operations scoped to an authenticated caller of
T2 carries the tenant identifier of T1 — every read query conjoins equality
on the business id of the caller. -/
theorem C1_tenant_isolation (db : DB) (c1 c2 : Employee)
    (h : c1.business_id ≠ c2.business_id)
    (skip limit skip2 limit2 : Nat) (fs fs2 : List FilterItem) :
    (∀ it ∈ (get_employees db c2 skip limit fs).items, it.business_id ≠ c1.business_id) ∧
    (∀ st ∈ (get_stores db c2 skip2 limit2 fs2).items,
      st.business_id ≠ toString c1.business_id) ∧
    (∀ cl ∈ get_custom_labels db c2, cl.business_id ≠ c1.business_id) := by
  refine ⟨?_, ?_, ?_⟩
  · intro it hit
    simp only [get_employees] at hit
    obtain ⟨e, he, rfl⟩ := List.mem_map.mp hit
    have he1 : e ∈ applyEmployeeFilters db c2.business_id fs
        (db.employees.filter (fun x => x.business_id == c2.business_id)) :=
      List.drop_subset _ _ (List.take_subset _ _ he)
    have he2 := applyEmployeeFilters_subset db c2.business_id fs _ e he1
    have hbid : e.business_id = c2.business_id := by
      simpa using (List.mem_filter.mp he2).2
    simp only [buildEmployeeItem]
    rw [hbid]
    exact Ne.symm h
  · intro st hst
    simp only [get_stores] at hst
    obtain ⟨s, hs, rfl⟩ := List.mem_map.mp hst
    have hs1 : s ∈ applyStoreFilters fs2
        (db.stores.filter (fun x => x.business_id == toString c2.business_id)) :=
      (List.perm_insertionSort _ _).mem_iff.mp
        (List.drop_subset _ _ (List.take_subset _ _ hs))
    have hs2 := applyStoreFilters_subset fs2 _ s hs1
    have hbid : s.business_id = toString c2.business_id := by
      simpa using (List.mem_filter.mp hs2).2
    simp only [buildStoreItem]
    rw [hbid]
    intro heq
    exact h (natToString_injective _ _ heq.symm)
  · intro cl hcl
    simp only [get_custom_labels] at hcl
    have hcl2 := (List.perm_insertionSort _ _).mem_iff.mp hcl
    have hbid : cl.business_id = c2.business_id := by
      simpa using (List.mem_filter.mp hcl2).2
    rw [hbid]
    exact Ne.symm h

/-- Witness for C1 on concrete data: the caller of tenant 20001 never sees
the employee, store or custom label of tenant 20000. -/
theorem C1_witness :
    (∀ it ∈ (get_employees dbIso callerB 0 100 []).items,
      it.business_id ≠ callerA.business_id) ∧
    (∀ st ∈ (get_stores dbIso callerB 0 100 []).items,
      st.business_id ≠ toString callerA.business_id) ∧
    (∀ cl ∈ get_custom_labels dbIso callerB, cl.business_id ≠ callerA.business_id) :=
  C1_tenant_isolation dbIso callerA callerB (by decide) 0 100 0 100 [] []

theorem update_cf_eq (db : DB) (caller : Employee) (eid : Nat) (target : Employee)
    (pairs : List (String × Option String))
    (hfind : db.employees.find?
      (fun e => e.emp_id == eid && e.business_id == caller.business_id) = some target)
    (hperm : caller.emp_id = eid ∨ caller.role ∈ elevatedRoles) :
    update_employee_custom_fields db caller eid (some pairs) =
      ({ db with employee_labels :=
          db.employee_labels.filter (fun lb => lb.emp_id ≠ some eid) ++
          mkCFLabels eid target.business_id pairs }, .ok ()) := by
  unfold update_employee_custom_fields
  simp only [hfind]
  split
  · next hcond =>
    exfalso
    rcases hperm with h | h
    · simp [h] at hcond
    · simp [List.contains, List.elem_eq_mem, h] at hcond
  · rfl

theorem employeeCustomFields_eq (db : DB) (bid eid : Nat) (K : List EmployeeLabel)
    (pairs : List (String × Option String))
    (hlab : db.employee_labels = K ++ mkCFLabels eid bid pairs)
    (hK : ∀ lb ∈ K, lb.emp_id ≠ some eid) :
    employeeCustomFields db bid eid = pairs := by
  unfold employeeCustomFields
  rw [hlab]
  unfold mkCFLabels
  rw [List.filter_append]
  have h1 : K.filter (fun lb => lb.emp_id == some eid && lb.business_id == bid) = [] := by
    apply List.filter_eq_nil_iff.mpr
    intro lb hlb
    simp only [Bool.and_eq_true, beq_iff_eq, not_and]
    intro hc
    exact absurd hc (hK lb hlb)
  have h2 : (pairs.map (fun p =>
      { emp_id := some eid
        business_id := bid
        label_name := p.1
        label_value := p.2
        label_values := none : EmployeeLabel })).filter
        (fun lb => lb.emp_id == some eid && lb.business_id == bid) =
      pairs.map (fun p =>
      { emp_id := some eid
        business_id := bid
        label_name := p.1
        label_value := p.2
        label_values := none : EmployeeLabel }) := by
    apply List.filter_eq_self.mpr
    intro lb hlb
    obtain ⟨p, _, rfl⟩ := List.mem_map.mp hlb
    simp
  rw [h1, h2, List.nil_append, List.map_map]
  have hid : ((fun lb : EmployeeLabel => (lb.label_name, lb.label_value)) ∘
      (fun p : String × Option String =>
        ({ emp_id := some eid
           business_id := bid
           label_name := p.1
           label_value := p.2
           label_values := none } : EmployeeLabel))) = id := by
    funext p
    rfl
  rw [hid, List.map_id]

theorem get_employee_after_update (db : DB) (caller : Employee) (eid : Nat)
    (target : Employee) (Y : List (String × Option String))
    (hfind : db.employees.find?
      (fun e => e.emp_id == eid && e.business_id == caller.business_id) = some target)
    (hperm : caller.emp_id = eid ∨ caller.role ∈ elevatedRoles) :
    get_employee (update_employee_custom_fields db caller eid (some Y)).1 caller eid =
      .ok (buildEmployeeItem (update_employee_custom_fields db caller eid (some Y)).1
        target.business_id target) ∧
    (buildEmployeeItem (update_employee_custom_fields db caller eid (some Y)).1
        target.business_id target).custom_fields = (if Y.isEmpty then none else some Y) := by
  have hte : target.emp_id = eid := by
    have h := List.find?_some hfind
    simp only [Bool.and_eq_true, beq_iff_eq] at h
    exact h.1
  have hu := update_cf_eq db caller eid target Y hfind hperm
  rw [hu]
  have hK : ∀ lb ∈ db.employee_labels.filter (fun lb => lb.emp_id ≠ some eid),
      lb.emp_id ≠ some eid := by
    intro lb hlb
    have h := (List.mem_filter.mp hlb).2
    simpa using h
  have hcf : employeeCustomFields
      ({ db with employee_labels :=
          db.employee_labels.filter (fun lb => lb.emp_id ≠ some eid) ++
          mkCFLabels eid target.business_id Y })
      target.business_id eid = Y :=
    employeeCustomFields_eq _ target.business_id eid
      (db.employee_labels.filter (fun lb => lb.emp_id ≠ some eid)) Y rfl hK
  constructor
  · unfold get_employee
    simp only [hfind]
  · simp only [buildEmployeeItem, hte, hcf]

/-- C4: updating an employee with an explicit `custom_fields` list replaces
all instance rows of that employee: after a replacement by the empty list a
get yields no custom fields, and a replacement by X followed by a
replacement by Y yields exactly the pairs of Y with no residue from X. -/
theorem C4_replace_all_instances (db : DB) (caller : Employee) (eid : Nat)
    (target : Employee)
    (hfind : db.employees.find?
      (fun e => e.emp_id == eid && e.business_id == caller.business_id) = some target)
    (hperm : caller.emp_id = eid ∨ caller.role ∈ elevatedRoles) :
    ((update_employee_custom_fields db caller eid (some [])).2 = .ok () ∧
      ∃ it, get_employee (update_employee_custom_fields db caller eid (some [])).1 caller eid
          = .ok it ∧ it.custom_fields = none) ∧
    (∀ X Y : List (String × Option String),
      ∃ it, get_employee
          (update_employee_custom_fields
            (update_employee_custom_fields db caller eid (some X)).1 caller eid (some Y)).1
          caller eid = .ok it ∧
        it.custom_fields = (if Y.isEmpty then none else some Y)) := by
  constructor
  · constructor
    · rw [update_cf_eq db caller eid target [] hfind hperm]
    · obtain ⟨hg, hcf⟩ := get_employee_after_update db caller eid target [] hfind hperm
      exact ⟨_, hg, by simpa using hcf⟩
  · intro X Y
    have hfindX : ((update_employee_custom_fields db caller eid (some X)).1).employees.find?
        (fun e => e.emp_id == eid && e.business_id == caller.business_id) = some target := by
      rw [update_cf_eq db caller eid target X hfind hperm]
      exact hfind
    obtain ⟨hg, hcf⟩ :=
      get_employee_after_update _ caller eid target Y hfindX hperm
    exact ⟨_, hg, hcf⟩

/-- Witness for C4 on concrete data: employee 1000 of tenant 20000 updated
by the singleton list Department = Sales after an earlier Blood-Group
value; the get returns exactly the new pair. -/
theorem C4_witness :
    ((update_employee_custom_fields dbIso callerA 1000 (some [])).2 = .ok () ∧
      ∃ it, get_employee (update_employee_custom_fields dbIso callerA 1000 (some [])).1
          callerA 1000 = .ok it ∧ it.custom_fields = none) ∧
    (∀ X Y : List (String × Option String),
      ∃ it, get_employee
          (update_employee_custom_fields
            (update_employee_custom_fields dbIso callerA 1000 (some X)).1 callerA 1000 (some Y)).1
          callerA 1000 = .ok it ∧
        it.custom_fields = (if Y.isEmpty then none else some Y)) :=
  C4_replace_all_instances dbIso callerA 1000 callerA (by decide) (Or.inl (by decide))

theorem find?_updateFirstTemplate (bid : Nat) (name : String) (newVals : List String)
    (ls : List EmployeeLabel) (t : EmployeeLabel)
    (hfind : ls.find? (isTemplateFor bid name) = some t) :
    (updateFirstTemplate bid name newVals ls).find? (isTemplateFor bid name) =
      some { t with label_values := some newVals } := by
  induction ls with
  | nil => simp at hfind
  | cons lb rest ih =>
    cases hc : isTemplateFor bid name lb with
    | true =>
      have ht : t = lb := by
        rw [List.find?_cons_of_pos rest hc] at hfind
        exact (Option.some.inj hfind).symm
      subst ht
      simp only [updateFirstTemplate, hc, if_true]
      rw [List.find?_cons_of_pos rest (by simpa [isTemplateFor] using hc)]
    | false =>
      rw [List.find?_cons_of_neg rest (by simp [hc])] at hfind
      simp only [updateFirstTemplate, hc, Bool.false_eq_true, if_false]
      rw [List.find?_cons_of_neg _ (by simp [hc])]
      exact ih hfind

theorem merged_again (c vv : List String) (hnd : c.Nodup) (hsub : ∀ v ∈ vv, v ∈ c) :
    (c ++ vv).dedup.length = c.length ∧ (∀ v, v ∈ (c ++ vv).dedup ↔ v ∈ c) := by
  have hmem : ∀ v, v ∈ (c ++ vv).dedup ↔ v ∈ c := by
    intro v
    rw [List.mem_dedup, List.mem_append]
    constructor
    · rintro (h | h)
      · exact h
      · exact hsub v h
    · exact Or.inl
  refine ⟨?_, hmem⟩
  exact ((List.perm_ext_iff_of_nodup (List.nodup_dedup _) hnd).mpr hmem).length_eq

theorem define_create_eq (db : DB) (caller : Employee) (nameRaw : String)
    (values : List String) (ln : String) (vv : List String)
    (hlneq : ln = pyStrip nameRaw)
    (hvveq : vv = ((values.map (fun v => pyStrip v)).filter (fun v => v ≠ emptyStr)).dedup)
    (hn : (ln == emptyStr) = false)
    (hv : values.isEmpty = false)
    (hvv : vv.isEmpty = false)
    (hft : findTemplate db caller.business_id ln = none) :
    define_custom_label db caller nameRaw values =
      ({ db with employee_labels := (db.employee_labels ++
          [{ emp_id := none
             business_id := caller.business_id
             label_name := ln
             label_value := none
             label_values := some vv }]) },
       .ok { label_name := ln, new_values_added := none, total_values := vv.length }) := by
  subst hlneq
  subst hvveq
  have hn' : ¬((pyStrip nameRaw == emptyStr) = true) := by
    rw [hn]
    exact Bool.false_ne_true
  have hv' : ¬(values.isEmpty = true) := by
    rw [hv]
    exact Bool.false_ne_true
  have hvv' : ¬((((values.map (fun v => pyStrip v)).filter
      (fun v => v ≠ emptyStr)).dedup).isEmpty = true) := by
    rw [hvv]
    exact Bool.false_ne_true
  simp only [define_custom_label]
  rw [if_neg hn', if_neg hv', if_neg hvv', hft]

theorem define_merge_eq (db : DB) (caller : Employee) (nameRaw : String)
    (values : List String) (ln : String) (vv : List String) (tmpl : EmployeeLabel)
    (hlneq : ln = pyStrip nameRaw)
    (hvveq : vv = ((values.map (fun v => pyStrip v)).filter (fun v => v ≠ emptyStr)).dedup)
    (hn : (ln == emptyStr) = false)
    (hv : values.isEmpty = false)
    (hvv : vv.isEmpty = false)
    (hft : findTemplate db caller.business_id ln = some tmpl) :
    define_custom_label db caller nameRaw values =
      ({ db with employee_labels := (updateFirstTemplate caller.business_id ln
          ((tmpl.label_values.getD [] ++ vv).dedup) db.employee_labels) },
       .ok { label_name := ln
             new_values_added := some
               (((tmpl.label_values.getD [] ++ vv).dedup.length : Int) -
                 (tmpl.label_values.getD []).length)
             total_values := (tmpl.label_values.getD [] ++ vv).dedup.length }) := by
  subst hlneq
  subst hvveq
  have hn' : ¬((pyStrip nameRaw == emptyStr) = true) := by
    rw [hn]
    exact Bool.false_ne_true
  have hv' : ¬(values.isEmpty = true) := by
    rw [hv]
    exact Bool.false_ne_true
  have hvv' : ¬((((values.map (fun v => pyStrip v)).filter
      (fun v => v ≠ emptyStr)).dedup).isEmpty = true) := by
    rw [hvv]
    exact Bool.false_ne_true
  simp only [define_custom_label]
  rw [if_neg hn', if_neg hv', if_neg hvv', hft]

theorem define_second (db1 : DB) (caller : Employee) (nameRaw : String)
    (values : List String) (ln : String) (vv : List String) (tmpl1 : EmployeeLabel)
    (hlneq : ln = pyStrip nameRaw)
    (hvveq : vv = ((values.map (fun v => pyStrip v)).filter (fun v => v ≠ emptyStr)).dedup)
    (hn : (ln == emptyStr) = false)
    (hv : values.isEmpty = false)
    (hvv : vv.isEmpty = false)
    (hft1 : findTemplate db1 caller.business_id ln = some tmpl1)
    (hnd : (tmpl1.label_values.getD []).Nodup)
    (hsub : ∀ v ∈ vv, v ∈ tmpl1.label_values.getD []) :
    ∃ r2, (define_custom_label db1 caller nameRaw values).2 = .ok r2 ∧
      r2.new_values_added = some 0 ∧
      (∀ v, v ∈ storedTemplateValues (define_custom_label db1 caller nameRaw values).1
          caller.business_id ln ↔
        v ∈ storedTemplateValues db1 caller.business_id ln) := by
  obtain ⟨hlen, hmem⟩ := merged_again (tmpl1.label_values.getD []) vv hnd hsub
  have e2 := define_merge_eq db1 caller nameRaw values ln vv tmpl1 hlneq hvveq hn hv hvv hft1
  have hft1' : db1.employee_labels.find? (isTemplateFor caller.business_id ln) = some tmpl1 := by
    unfold findTemplate at hft1
    exact hft1
  have hup := find?_updateFirstTemplate caller.business_id ln
    ((tmpl1.label_values.getD [] ++ vv).dedup) db1.employee_labels tmpl1 hft1'
  refine ⟨{ label_name := ln
            new_values_added := some (((tmpl1.label_values.getD [] ++ vv).dedup.length : Int) -
              (tmpl1.label_values.getD []).length)
            total_values := (tmpl1.label_values.getD [] ++ vv).dedup.length }, ?_, ?_, ?_⟩
  · rw [e2]
  · dsimp only
    rw [hlen]
    simp
  · intro v
    rw [e2]
    unfold storedTemplateValues findTemplate
    dsimp only
    rw [hup, hft1']
    dsimp only [Option.getD]
    exact hmem v

/-- C5: DefineOrMergeTemplate is idempotent — when a first call with
`(tenant, label_name, values)` succeeds, an identical second call succeeds,
reports zero net-new values, and leaves the stored template value set of
that label unchanged. -/
theorem C5_define_idempotent (db : DB) (caller : Employee) (nameRaw : String)
    (values : List String) (r1 : DefineLabelOk)
    (h1 : (define_custom_label db caller nameRaw values).2 = .ok r1) :
    ∃ r2, (define_custom_label (define_custom_label db caller nameRaw values).1
        caller nameRaw values).2 = .ok r2 ∧
      r2.new_values_added = some 0 ∧
      (∀ v, v ∈ storedTemplateValues
          (define_custom_label (define_custom_label db caller nameRaw values).1
            caller nameRaw values).1 caller.business_id (pyStrip nameRaw) ↔
        v ∈ storedTemplateValues (define_custom_label db caller nameRaw values).1
          caller.business_id (pyStrip nameRaw)) := by
  cases hn : (pyStrip nameRaw == emptyStr) with
  | true =>
    exfalso
    unfold define_custom_label at h1
    rw [if_pos hn] at h1
    simp at h1
  | false =>
  cases hv : values.isEmpty with
  | true =>
    exfalso
    unfold define_custom_label at h1
    rw [if_neg (by rw [hn]; exact Bool.false_ne_true), if_pos hv] at h1
    simp at h1
  | false =>
  cases hvv : (((values.map (fun v => pyStrip v)).filter
      (fun v => v ≠ emptyStr)).dedup).isEmpty with
  | true =>
    exfalso
    simp only [define_custom_label] at h1
    rw [if_neg (by rw [hn]; exact Bool.false_ne_true),
      if_neg (by rw [hv]; exact Bool.false_ne_true), if_pos hvv] at h1
    simp at h1
  | false =>
  cases hft : findTemplate db caller.business_id (pyStrip nameRaw) with
  | none =>
    have e1 := define_create_eq db caller nameRaw values (pyStrip nameRaw)
      (((values.map (fun v => pyStrip v)).filter (fun v => v ≠ emptyStr)).dedup)
      rfl rfl hn hv hvv hft
    refine define_second _ caller nameRaw values (pyStrip nameRaw)
      (((values.map (fun v => pyStrip v)).filter (fun v => v ≠ emptyStr)).dedup)
      ⟨none, caller.business_id, pyStrip nameRaw, none,
        some (((values.map (fun v => pyStrip v)).filter (fun v => v ≠ emptyStr)).dedup)⟩
      rfl rfl hn hv hvv ?_ ?_ ?_
    · rw [e1]
      unfold findTemplate at hft ⊢
      dsimp only
      rw [List.find?_append, hft]
      simp [isTemplateFor]
    · exact List.nodup_dedup _
    · intro v hv2
      exact hv2
  | some tmpl0 =>
    have e1 := define_merge_eq db caller nameRaw values (pyStrip nameRaw)
      (((values.map (fun v => pyStrip v)).filter (fun v => v ≠ emptyStr)).dedup)
      tmpl0 rfl rfl hn hv hvv hft
    have hft' : db.employee_labels.find?
        (isTemplateFor caller.business_id (pyStrip nameRaw)) = some tmpl0 := by
      unfold findTemplate at hft
      exact hft
    have hup := find?_updateFirstTemplate caller.business_id (pyStrip nameRaw)
      ((tmpl0.label_values.getD [] ++
        ((values.map (fun v => pyStrip v)).filter (fun v => v ≠ emptyStr)).dedup).dedup)
      db.employee_labels tmpl0 hft'
    refine define_second _ caller nameRaw values (pyStrip nameRaw)
      (((values.map (fun v => pyStrip v)).filter (fun v => v ≠ emptyStr)).dedup)
      { tmpl0 with label_values := some ((tmpl0.label_values.getD [] ++
          ((values.map (fun v => pyStrip v)).filter (fun v => v ≠ emptyStr)).dedup).dedup) }
      rfl rfl hn hv hvv ?_ ?_ ?_
    · rw [e1]
      unfold findTemplate
      dsimp only
      exact hup
    · exact List.nodup_dedup _
    · intro v hv2
      dsimp only [Option.getD]
      rw [List.mem_dedup, List.mem_append]
      exact Or.inr hv2

/-- Witness for C5 on concrete data: defining the label Shift with two
values twice for tenant 20000. -/
theorem C5_witness :
    ∃ r2, (define_custom_label (define_custom_label dbIso callerA "Shift" ["Day", "Night"]).1
        callerA "Shift" ["Day", "Night"]).2 = .ok r2 ∧
      r2.new_values_added = some 0 ∧
      (∀ v, v ∈ storedTemplateValues
          (define_custom_label (define_custom_label dbIso callerA "Shift" ["Day", "Night"]).1
            callerA "Shift" ["Day", "Night"]).1 callerA.business_id (pyStrip "Shift") ↔
        v ∈ storedTemplateValues (define_custom_label dbIso callerA "Shift" ["Day", "Night"]).1
          callerA.business_id (pyStrip "Shift")) :=
  C5_define_idempotent dbIso callerA "Shift" ["Day", "Night"]
    { label_name := "Shift", new_values_added := none, total_values := 2 } (by rfl)

/-- C6: ListValues returns the sorted deduplicated union of the template
value array and the distinct non-null instance values of the label; in
particular it contains every value of every instance row still stored for
that tenant and label, even when no template exists. -/
theorem C6_list_values (db : DB) (caller : Employee) (label_name : String) :
    List.Sorted (· ≤ ·) (get_label_values db caller label_name) ∧
    (get_label_values db caller label_name).Nodup ∧
    (∀ v, v ∈ get_label_values db caller label_name ↔
      (v ∈ storedTemplateValues db caller.business_id label_name ∨
        ∃ lb ∈ db.employee_labels, lb.business_id = caller.business_id ∧
          lb.label_name = label_name ∧ lb.emp_id.isSome ∧ lb.label_value = some v)) ∧
    (∀ v lb, lb ∈ db.employee_labels → lb.business_id = caller.business_id →
      lb.label_name = label_name → lb.emp_id.isSome → lb.label_value = some v →
      v ∈ get_label_values db caller label_name) := by
  have hmem : ∀ v, v ∈ get_label_values db caller label_name ↔
      (v ∈ storedTemplateValues db caller.business_id label_name ∨
        ∃ lb ∈ db.employee_labels, lb.business_id = caller.business_id ∧
          lb.label_name = label_name ∧ lb.emp_id.isSome ∧ lb.label_value = some v) := by
    intro v
    unfold get_label_values
    rw [(List.perm_insertionSort _ _).mem_iff, List.mem_dedup, List.mem_append]
    constructor
    · rintro (h | h)
      · left
        unfold storedTemplateValues
        exact h
      · right
        rw [List.mem_dedup] at h
        obtain ⟨lb, hlb, hv⟩ := List.mem_map.mp h
        obtain ⟨hin, hcond⟩ := List.mem_filter.mp hlb
        simp only [Bool.and_eq_true, beq_iff_eq] at hcond
        obtain ⟨⟨⟨hb, hn⟩, hs⟩, hval⟩ := hcond
        obtain ⟨w, hw⟩ := Option.isSome_iff_exists.mp hval
        refine ⟨lb, hin, hb, hn, hs, ?_⟩
        rw [hw] at hv ⊢
        simp only [Option.getD_some] at hv
        rw [hv]
    · rintro (h | ⟨lb, hlb, hb, hn, hs, hv⟩)
      · left
        unfold storedTemplateValues at h
        exact h
      · right
        rw [List.mem_dedup]
        refine List.mem_map.mpr ⟨lb, List.mem_filter.mpr ⟨hlb, ?_⟩, ?_⟩
        · simp [hb, hn, hs, hv]
        · rw [hv]
          rfl
  refine ⟨?_, ?_, hmem, ?_⟩
  · unfold get_label_values
    exact List.sorted_insertionSort _ _
  · unfold get_label_values
    exact ((List.perm_insertionSort _ _).nodup_iff).mpr (List.nodup_dedup _)
  · intro v lb h1 h2 h3 h4 h5
    exact (hmem v).mpr (Or.inr ⟨lb, h1, h2, h3, h4, h5⟩)

/-- C9: ListLabelNames returns the distinct label names of the tenant,
sorted lexicographically, with no name twice — for employees from the
`employee_labels` table (distinct plus sort make this unconditional), for
products from the per-tenant `custom_labels` table, whose query relies on
the per-business name uniqueness that `create_custom_label` maintains
(last conjunct). -/
theorem C9_list_label_names (db : DB) (caller : Employee) :
    (List.Sorted (· ≤ ·) (get_custom_field_labels db caller) ∧
      (get_custom_field_labels db caller).Nodup ∧
      (∀ n, n ∈ get_custom_field_labels db caller ↔
        ∃ lb ∈ db.employee_labels, lb.business_id = caller.business_id ∧
          lb.label_name = n)) ∧
    (List.Sorted (· ≤ ·) (get_custom_label_names db caller) ∧
      (((db.custom_labels.filter (fun l => l.business_id == caller.business_id)).map
          (fun l => l.label_name)).Nodup →
        (get_custom_label_names db caller).Nodup) ∧
      (∀ n, n ∈ get_custom_label_names db caller ↔
        ∃ l ∈ db.custom_labels, l.business_id = caller.business_id ∧
          l.label_name = n)) ∧
    (∀ (p : CustomLabelCreatePayload) (bid : Nat) (db' : DB)
        (result : Except ApiError CustomLabel),
      ((db.custom_labels.filter (fun l => l.business_id == bid)).map
        (fun l => l.label_name)).Nodup →
      create_custom_label db caller p = (db', result) →
      ((db'.custom_labels.filter (fun l => l.business_id == bid)).map
        (fun l => l.label_name)).Nodup) := by
  refine ⟨⟨?_, ?_, ?_⟩, ⟨?_, ?_, ?_⟩, ?_⟩
  · unfold get_custom_field_labels
    exact List.sorted_insertionSort _ _
  · unfold get_custom_field_labels
    exact ((List.perm_insertionSort _ _).nodup_iff).mpr (List.nodup_dedup _)
  · intro n
    unfold get_custom_field_labels
    rw [(List.perm_insertionSort _ _).mem_iff, List.mem_dedup]
    constructor
    · intro h
      obtain ⟨lb, hlb, hn⟩ := List.mem_map.mp h
      obtain ⟨hin, hcond⟩ := List.mem_filter.mp hlb
      exact ⟨lb, hin, by simpa using hcond, hn⟩
    · rintro ⟨lb, hin, hb, hn⟩
      exact List.mem_map.mpr ⟨lb, List.mem_filter.mpr ⟨hin, by simp [hb]⟩, hn⟩
  · unfold get_custom_label_names
    haveI : IsTotal CustomLabel (fun a b => a.label_name ≤ b.label_name) :=
      ⟨fun a b => le_total a.label_name b.label_name⟩
    haveI : IsTrans CustomLabel (fun a b => a.label_name ≤ b.label_name) :=
      ⟨fun _ _ _ hab hbc => le_trans hab hbc⟩
    exact List.Pairwise.map _ (fun _ _ h => h) (List.sorted_insertionSort _ _)
  · intro hnd
    unfold get_custom_label_names
    exact (((List.perm_insertionSort _ _).map _).nodup_iff).mpr hnd
  · intro n
    unfold get_custom_label_names
    constructor
    · intro h
      obtain ⟨l, hl, hn⟩ := List.mem_map.mp h
      have hl2 := (List.perm_insertionSort _ _).mem_iff.mp hl
      obtain ⟨hin, hcond⟩ := List.mem_filter.mp hl2
      exact ⟨l, hin, by simpa using hcond, hn⟩
    · rintro ⟨l, hin, hb, hn⟩
      refine List.mem_map.mpr ⟨l, ?_, hn⟩
      exact (List.perm_insertionSort _ _).mem_iff.mpr
        (List.mem_filter.mpr ⟨hin, by simp [hb]⟩)
  · intro p bid db' result hnd heq
    unfold create_custom_label at heq
    split at heq
    · have hdb : db' = db := (congrArg Prod.fst heq).symm
      rw [hdb]
      exact hnd
    · dsimp only at heq
      split at heq
      · have hdb : db' = db := (congrArg Prod.fst heq).symm
        rw [hdb]
        exact hnd
      · next hfind =>
        have hdb : db' = { db with
            custom_labels := db.custom_labels ++
              [{ id := db.next_custom_label_id
                 label_name := p.label_name
                 label_values := p.label_values
                 label_type := "employee"
                 business_id := caller.business_id }]
            next_custom_label_id := db.next_custom_label_id + 1 } :=
          (congrArg Prod.fst heq).symm
        rw [hdb]
        by_cases hbid : bid = caller.business_id
        · subst hbid
          rw [List.filter_append, List.map_append]
          have hnew : (List.filter (fun l => l.business_id == caller.business_id)
              [{ id := db.next_custom_label_id
                 label_name := p.label_name
                 label_values := p.label_values
                 label_type := "employee"
                 business_id := caller.business_id : CustomLabel }]) =
              [{ id := db.next_custom_label_id
                 label_name := p.label_name
                 label_values := p.label_values
                 label_type := "employee"
                 business_id := caller.business_id : CustomLabel }] := by
            simp
          rw [hnew]
          rw [List.nodup_append]
          refine ⟨hnd, by simp, ?_⟩
          intro x hx
          simp only [List.map_cons, List.map_nil, List.mem_singleton]
          intro hxeq
      -- x is a name of an existing row of the tenant equal to p.label_name
          obtain ⟨l, hl, hxname⟩ := List.mem_map.mp hx
          obtain ⟨hlin, hlcond⟩ := List.mem_filter.mp hl
          have hfnone : db.custom_labels.find?
              (fun l => l.business_id == caller.business_id &&
                l.label_name == p.label_name) = none := by
            cases hcase : db.custom_labels.find?
                (fun l => l.business_id == caller.business_id &&
                  l.label_name == p.label_name) with
            | none => rfl
            | some w =>
              exfalso
              apply hfind
              rw [hcase]
              rfl
          have := List.find?_eq_none.mp hfnone l hlin
          apply this
          simp only [Bool.and_eq_true, beq_iff_eq]
          constructor
          · simpa using hlcond
          · rw [hxname, hxeq]
        · rw [List.filter_append]
          have hnew : (List.filter (fun l => l.business_id == bid)
              [{ id := db.next_custom_label_id
                 label_name := p.label_name
                 label_values := p.label_values
                 label_type := "employee"
                 business_id := caller.business_id : CustomLabel }]) = [] := by
            simp
            exact fun h => hbid h.symm
          rw [hnew, List.append_nil]
          exact hnd

/-- Witness for C9 on concrete data: both label-name listings of tenant
20000 are duplicate-free. -/
theorem C9_witness :
    (get_custom_field_labels dbIso callerA).Nodup ∧
    (get_custom_label_names dbIso callerA).Nodup :=
  ⟨(C9_list_label_names dbIso callerA).1.2.1,
   (C9_list_label_names dbIso callerA).2.1.2.1 (by decide)⟩

theorem create_store_fst (db : DB) (c : Employee) (p : StoreCreatePayload) :
    (create_store db c p).1 = db ∨
    (create_store db c p).1 = { db with
      stores := db.stores ++
        [{ id := db.next_store_id
           business_id := toString c.business_id
           store_sequence := (db.stores.filter
             (fun s => s.business_id == toString c.business_id)).length + 1
           store_name := p.store_name
           store_address := p.store_address
           store_city := p.store_city
           store_state := p.store_state
           store_country := p.store_country
           store_pincode := p.store_pincode }]
      next_store_id := db.next_store_id + 1 } := by
  unfold create_store
  split
  · left
    rfl
  · dsimp only
    split
    · left
      rfl
    · split
      · left
        rfl
      · right
        rfl

theorem create_store_seq_invariant (bid : String) :
    ∀ (ops : List (Employee × StoreCreatePayload)) (db0 : DB),
      ((db0.stores.filter (fun s => s.business_id == bid)).map
          (fun s => s.store_sequence)) =
        List.range' 1 (db0.stores.filter (fun s => s.business_id == bid)).length →
      (((ops.foldl (fun d cp => (create_store d cp.1 cp.2).1) db0).stores.filter
          (fun s => s.business_id == bid)).map (fun s => s.store_sequence)) =
        List.range' 1 ((ops.foldl (fun d cp => (create_store d cp.1 cp.2).1) db0).stores.filter
          (fun s => s.business_id == bid)).length := by
  intro ops
  induction ops with
  | nil =>
    intro db0 h
    simpa using h
  | cons op rest ih =>
    intro db0 h
    simp only [List.foldl_cons]
    apply ih
    rcases create_store_fst db0 op.1 op.2 with hc | hc
    · rw [hc]
      exact h
    · rw [hc]
      by_cases hbid : toString op.1.business_id = bid
      · have hst : (List.filter (fun s => s.business_id == bid)
            [{ id := db0.next_store_id
               business_id := toString op.1.business_id
               store_sequence := (db0.stores.filter
                 (fun s => s.business_id == toString op.1.business_id)).length + 1
               store_name := op.2.store_name
               store_address := op.2.store_address
               store_city := op.2.store_city
               store_state := op.2.store_state
               store_country := op.2.store_country
               store_pincode := op.2.store_pincode : Store }]) =
            [{ id := db0.next_store_id
               business_id := toString op.1.business_id
               store_sequence := (db0.stores.filter
                 (fun s => s.business_id == toString op.1.business_id)).length + 1
               store_name := op.2.store_name
               store_address := op.2.store_address
               store_city := op.2.store_city
               store_state := op.2.store_state
               store_country := op.2.store_country
               store_pincode := op.2.store_pincode : Store }] := by
          simp [hbid]
        show ((db0.stores ++ _).filter (fun s => s.business_id == bid)).map
            (fun s => s.store_sequence) = _
        rw [List.filter_append, hst, List.map_append, List.length_append, h]
        simp only [List.map_cons, List.map_nil, List.length_cons, List.length_nil]
        rw [hbid, List.range'_1_concat]
        have hlen : (List.range' 1 (db0.stores.filter
            (fun s => s.business_id == bid)).length).length =
            (db0.stores.filter (fun s => s.business_id == bid)).length := by
          simp
        rw [← h]
        simp [Nat.add_comm]
      · have hst : (List.filter (fun s => s.business_id == bid)
            [{ id := db0.next_store_id
               business_id := toString op.1.business_id
               store_sequence := (db0.stores.filter
                 (fun s => s.business_id == toString op.1.business_id)).length + 1
               store_name := op.2.store_name
               store_address := op.2.store_address
               store_city := op.2.store_city
               store_state := op.2.store_state
               store_country := op.2.store_country
               store_pincode := op.2.store_pincode : Store }]) = [] := by
          simp only [List.filter_cons, List.filter_nil]
          rw [if_neg]
          simp only [beq_iff_eq]
          exact hbid
        show ((db0.stores ++ _).filter (fun s => s.business_id == bid)).map
            (fun s => s.store_sequence) = _
        rw [List.filter_append, hst, List.append_nil]
        exact h

/-- Counterexample for C7: create a second store (sequence 2), delete the
first store (sequence 1), create a third store — its sequence is computed
as count-plus-one = 2, so two coexisting stores of tenant 20000 share the
sequence 2. -/
theorem C7_counterexample :
    ((((create_store (delete_store (create_store dbIso callerA
        (mkStorePayload "Uptown")).1 callerA 1).1 callerA
        (mkStorePayload "Midtown")).1.stores.filter
      (fun s => s.business_id == "20000")).map (fun s => s.store_sequence)) = [2, 2]) ∧
    ¬ ((((create_store (delete_store (create_store dbIso callerA
        (mkStorePayload "Uptown")).1 callerA 1).1 callerA
        (mkStorePayload "Midtown")).1.stores.filter
      (fun s => s.business_id == "20000")).map (fun s => s.store_sequence)).Nodup) := by
  decide

/-- C7 amended: in a history of store creations only (no deletions),
starting from a store table with no rows, no two stores of the same tenant
ever share a sequence value — each creation appends sequence
count-plus-one, so the sequences of each tenant are exactly 1..n.  With
deletions interleaved the property fails (see the counterexample): a
deletion lowers the count without renumbering, so the next creation can
duplicate a surviving sequence. -/
theorem C7_amended_sequences_unique (db0 : DB) (hempty : db0.stores = [])
    (ops : List (Employee × StoreCreatePayload)) (bid : String) :
    (((ops.foldl (fun d cp => (create_store d cp.1 cp.2).1) db0).stores.filter
      (fun s => s.business_id == bid)).map (fun s => s.store_sequence)).Nodup := by
  have h0 : ((db0.stores.filter (fun s => s.business_id == bid)).map
      (fun s => s.store_sequence)) =
      List.range' 1 (db0.stores.filter (fun s => s.business_id == bid)).length := by
    rw [hempty]
    simp
  have h := create_store_seq_invariant bid ops db0 h0
  rw [h]
  exact List.nodup_range' 1 _

/-- Witness for the amended C7 on concrete data: two creations for tenant
20000 from an empty store table yield distinct sequences. -/
theorem C7_witness :
    ((([(callerA, mkStorePayload "A"), (callerA, mkStorePayload "B")].foldl
        (fun d cp => (create_store d cp.1 cp.2).1)
        { emptyDB with businesses := [mkBusiness "20000"] }).stores.filter
      (fun s => s.business_id == "20000")).map (fun s => s.store_sequence)).Nodup :=
  C7_amended_sequences_unique { emptyDB with businesses := [mkBusiness "20000"] } (by rfl)
    [(callerA, mkStorePayload "A"), (callerA, mkStorePayload "B")] "20000"

theorem find?_updateFirstCustomLabel (lid bid : Nat) (f : CustomLabel → CustomLabel)
    (hpres : ∀ l, (f l).id = l.id ∧ (f l).business_id = l.business_id)
    (ls : List CustomLabel) (t : CustomLabel)
    (hfind : ls.find? (fun l => l.id == lid && l.business_id == bid) = some t) :
    (updateFirstCustomLabel lid bid f ls).find?
      (fun l => l.id == lid && l.business_id == bid) = some (f t) := by
  induction ls with
  | nil => simp at hfind
  | cons l rest ih =>
    cases hc : (l.id == lid && l.business_id == bid) with
    | true =>
      have ht : t = l := by
        rw [List.find?_cons_of_pos rest hc] at hfind
        exact (Option.some.inj hfind).symm
      subst ht
      simp only [updateFirstCustomLabel, hc, if_true]
      rw [List.find?_cons_of_pos rest ?_]
      simp only [Bool.and_eq_true, beq_iff_eq] at hc ⊢
      exact ⟨(hpres t).1.trans hc.1, (hpres t).2.trans hc.2⟩
    | false =>
      rw [List.find?_cons_of_neg rest (by simp [hc])] at hfind
      simp only [updateFirstCustomLabel, hc, Bool.false_eq_true, if_false]
      rw [List.find?_cons_of_neg _ (by simp [hc])]
      exact ih hfind

theorem update_label_values_eq (db : DB) (caller : Employee) (lid : Nat)
    (lab : CustomLabel) (v : String) (vs : List String)
    (hfind : db.custom_labels.find?
      (fun l => l.id == lid && l.business_id == caller.business_id) = some lab) :
    update_custom_label db caller lid ⟨none, v :: vs⟩ =
      ({ db with custom_labels := (updateFirstCustomLabel lid caller.business_id
          (fun l => { l with label_name := lab.label_name, label_values := v :: vs })
          db.custom_labels) },
       .ok { lab with label_values := v :: vs }) := by
  unfold update_custom_label
  rw [if_neg (by simp [emptyStr])]
  simp only [hfind]
  rw [if_neg (by simp [pyTruthy])]
  simp [pyTruthy]

/-- Counterexample for C8: supplying the empty values array does not
overwrite the stored array — the request is rejected by the schema
(`min_items=1`), the store is unchanged, and the stored array remains the
old one (and inside the handler an empty array would be falsy and skipped
as well). -/
theorem C8_counterexample :
    (update_custom_label dbIso callerA 1 ⟨none, []⟩).2 = .error .unprocessable ∧
    (update_custom_label dbIso callerA 1 ⟨none, []⟩).1 = dbIso ∧
    (((update_custom_label dbIso callerA 1 ⟨none, []⟩).1.custom_labels.find?
        (fun l => l.id == 1 && l.business_id == callerA.business_id)).map
      (fun l => l.label_values)) = some ["XL", "L"] := by
  refine ⟨rfl, rfl, ?_⟩
  decide

/-- C8 amended: for every existing custom label of the tenant of the
caller, the update operation with a non-empty values array unconditionally
overwrites the stored value array with exactly the supplied array (no merge
with the previous values); the empty array never reaches the stored row —
the schema rejects it and the handler treats it as falsy. -/
theorem C8_amended_replace (db : DB) (caller : Employee) (lid : Nat)
    (lab : CustomLabel) (v : String) (vs : List String)
    (hfind : db.custom_labels.find?
      (fun l => l.id == lid && l.business_id == caller.business_id) = some lab) :
    (update_custom_label db caller lid ⟨none, v :: vs⟩).2 =
      .ok { lab with label_values := v :: vs } ∧
    ((update_custom_label db caller lid ⟨none, v :: vs⟩).1.custom_labels.find?
      (fun l => l.id == lid && l.business_id == caller.business_id)) =
      some { lab with label_values := v :: vs } := by
  have he := update_label_values_eq db caller lid lab v vs hfind
  constructor
  · rw [he]
  · rw [he]
    have hup := find?_updateFirstCustomLabel lid caller.business_id
      (fun l => { l with label_name := lab.label_name, label_values := v :: vs })
      (fun l => ⟨rfl, rfl⟩) db.custom_labels lab hfind
    have hlab : ({ lab with label_name := lab.label_name, label_values := v :: vs }
        : CustomLabel) = { lab with label_values := v :: vs } := rfl
    rw [← hlab]
    exact hup

/-- Witness for the amended C8 on concrete data: replacing the values of
label 1 of tenant 20000 by the singleton M yields exactly that array. -/
theorem C8_witness :
    (update_custom_label dbIso callerA 1 ⟨none, ["M"]⟩).2 =
      .ok { id := 1
            label_name := "Size"
            label_values := ["M"]
            label_type := "employee"
            business_id := 20000 } ∧
    ((update_custom_label dbIso callerA 1 ⟨none, ["M"]⟩).1.custom_labels.find?
      (fun l => l.id == 1 && l.business_id == callerA.business_id)) =
      some { id := 1
             label_name := "Size"
             label_values := ["M"]
             label_type := "employee"
             business_id := 20000 } :=
  C8_amended_replace dbIso callerA 1
    { id := 1
      label_name := "Size"
      label_values := ["XL", "L"]
      label_type := "employee"
      business_id := 20000 } "M" [] (by rfl)

theorem addProductsLoop_errors_grow (bid : String) :
    ∀ (items : List ProductItem) (idx : Nat) (table created : List Products)
      (errors : List ProductErrorEntry) (nid : Nat),
      ∃ tail, (addProductsLoop bid items idx table created errors nid).2.2.1 =
        errors ++ tail := by
  intro items
  induction items with
  | nil =>
    intro idx table created errors nid
    exact ⟨[], by simp [addProductsLoop]⟩
  | cons item rest ih =>
    intro idx table created errors nid
    unfold addProductsLoop
    split
    · obtain ⟨tail, htail⟩ := ih (idx + 1) table created
        (errors ++ [⟨idx, barcodeFieldStr, item.barcode, duplicateEntryStr⟩]) nid
      exact ⟨[⟨idx, barcodeFieldStr, item.barcode, duplicateEntryStr⟩] ++ tail,
        by rw [htail, List.append_assoc]⟩
    · split
      · obtain ⟨tail, htail⟩ := ih (idx + 1) table created
          (errors ++ [⟨idx, skuFieldStr, item.sku.getD emptyStr, duplicateEntryStr⟩]) nid
        exact ⟨[⟨idx, skuFieldStr, item.sku.getD emptyStr, duplicateEntryStr⟩] ++ tail,
          by rw [htail, List.append_assoc]⟩
      · exact ih (idx + 1) _ _ errors (nid + 1)

theorem addProductsLoop_flags_dup (bid : String) :
    ∀ (items : List ProductItem) (idx : Nat) (table created : List Products)
      (errors : List ProductErrorEntry) (nid : Nat) (i : Nat) (h : i < items.length),
      (items.get ⟨i, h⟩).barcode ∈ table.map (fun p => p.barcode) →
      (idx + i) ∈ ((addProductsLoop bid items idx table created errors nid).2.2.1).map
        (fun er => er.product_index) := by
  intro items
  induction items with
  | nil =>
    intro idx table created errors nid i h
    exact absurd h (by simp)
  | cons item rest ih =>
    intro idx table created errors nid i h hmem
    cases i with
    | zero =>
      have hany : table.any (fun p => p.barcode == item.barcode) = true := by
        obtain ⟨p, hp, hpb⟩ := List.mem_map.mp hmem
        exact List.any_eq_true.mpr ⟨p, hp, by simp [hpb]⟩
      simp only [addProductsLoop, hany, if_true]
      obtain ⟨tail, htail⟩ := addProductsLoop_errors_grow bid rest (idx + 1) table created
        (errors ++ [⟨idx, barcodeFieldStr, item.barcode, duplicateEntryStr⟩]) nid
      rw [htail]
      simp
    | succ j =>
      have hj : j < rest.length := by simpa using h
      have hmem' : (rest.get ⟨j, hj⟩).barcode ∈ table.map (fun p => p.barcode) := hmem
      have hidx : idx + (j + 1) = (idx + 1) + j := by omega
      by_cases hb : (table.any (fun p => p.barcode == item.barcode)) = true
      · simp only [addProductsLoop, hb, if_true]
        rw [hidx]
        exact ih (idx + 1) table created _ nid j hj hmem'
      · by_cases hs : (pyTruthy item.sku && table.any (fun p => p.sku == item.sku)) = true
        · simp only [addProductsLoop]
          rw [if_neg hb, if_pos hs, hidx]
          exact ih (idx + 1) table created _ nid j hj hmem'
        · simp only [addProductsLoop]
          rw [if_neg hb, if_neg hs, hidx]
          apply ih
          rw [List.map_append, List.mem_append]
          exact Or.inl hmem'

/-- C3: when any item of an add-products batch fails a duplicate check,
the endpoint answers 400 with a non-empty per-item `validation_errors`
breakdown whose failed count matches, the failing item appears in the
breakdown, and nothing of the batch — the valid items included — is
persisted: the store is returned unchanged. -/
theorem C3_batch_atomicity (db : DB) (caller : Employee) (items : List ProductItem) :
    (∀ e, (add_products db caller items).2 = .validationFailed e →
      (add_products db caller items).1 = db ∧ e.validation_errors ≠ [] ∧
      e.failed_count = e.validation_errors.length) ∧
    (∀ (i : Nat) (h : i < items.length),
      (items.get ⟨i, h⟩).barcode ∈ db.products.map (fun p => p.barcode) →
      ∃ e, (add_products db caller items).2 = .validationFailed e ∧
        (add_products db caller items).1 = db ∧
        i ∈ e.validation_errors.map (fun er => er.product_index)) := by
  constructor
  · intro e he
    by_cases hni : items.isEmpty = true
    · unfold add_products at he
      rw [if_pos hni] at he
      simp at he
    · unfold add_products at he ⊢
      rw [if_neg hni] at he ⊢
      rcases hloop : addProductsLoop (toString caller.business_id) items 0 db.products [] []
        db.next_product_id with ⟨table, created, errors, nid⟩
      dsimp only at he ⊢
      rw [hloop] at he
      dsimp only at he
      by_cases herr : errors.isEmpty = true
      · rw [if_pos herr] at he
        simp at he
      · rw [if_neg herr] at he ⊢
        dsimp only at he ⊢
        injection he with hrec
        subst hrec
      -- the three conjuncts now read off the literal pair
        refine ⟨rfl, ?_, rfl⟩
        intro hnil
        dsimp only at hnil
        rw [hnil] at herr
        exact herr rfl
  · intro i h hmem
    have hne : items.isEmpty = false := by
      cases items with
      | nil => simp at h
      | cons a l => rfl
    have hflag := addProductsLoop_flags_dup (toString caller.business_id) items 0 db.products
      [] [] db.next_product_id i h hmem
    rw [Nat.zero_add] at hflag
    rcases hloop : addProductsLoop (toString caller.business_id) items 0 db.products [] []
      db.next_product_id with ⟨table, created, errors, nid⟩
    rw [hloop] at hflag
    dsimp only at hflag
    have herr : errors.isEmpty = false := by
      cases errors with
      | nil => simp at hflag
      | cons a l => rfl
    refine ⟨{ successful_count := created.length
              failed_count := errors.length
              validation_errors := errors }, ?_, ?_, hflag⟩
    · unfold add_products
      rw [if_neg (by rw [hne]; exact Bool.false_ne_true), hloop]
      dsimp only
      rw [if_neg (by rw [herr]; exact Bool.false_ne_true)]
    · unfold add_products
      rw [if_neg (by rw [hne]; exact Bool.false_ne_true), hloop]
      dsimp only
      rw [if_neg (by rw [herr]; exact Bool.false_ne_true)]

/-- Witness for C3 on concrete data: a batch of three items whose second
item duplicates the barcode of an existing product is rejected as a whole —
the 400 body names index 1 and the products table is unchanged, so items 0
and 2 are not persisted. -/
theorem C3_witness :
    ∃ e, (add_products { dbIso with products := [⟨1, "20000", some "PRD1", "Existing", "B1", none⟩] }
        callerA [⟨"N1", "F1", none⟩, ⟨"N2", "B1", none⟩, ⟨"N3", "F3", none⟩]).2 =
        .validationFailed e ∧
      (add_products { dbIso with products := [⟨1, "20000", some "PRD1", "Existing", "B1", none⟩] }
        callerA [⟨"N1", "F1", none⟩, ⟨"N2", "B1", none⟩, ⟨"N3", "F3", none⟩]).1 =
        { dbIso with products := [⟨1, "20000", some "PRD1", "Existing", "B1", none⟩] } ∧
      1 ∈ e.validation_errors.map (fun er => er.product_index) :=
  (C3_batch_atomicity { dbIso with products := [⟨1, "20000", some "PRD1", "Existing", "B1", none⟩] }
    callerA [⟨"N1", "F1", none⟩, ⟨"N2", "B1", none⟩, ⟨"N3", "F3", none⟩]).2 1
    (by decide) (by decide)

/-- C10: the duplicate checks of add-products are global, not
tenant-scoped — a single-item batch is rejected whenever any product of the
whole store carries the same barcode (or the same non-empty SKU when no
barcode collision fires), with no restriction connecting the existing
product to the tenant of the caller, and nothing is persisted. -/
theorem C10_duplicate_checks_global (db : DB) (caller : Employee) (item : ProductItem)
    (p : Products) (hp : p ∈ db.products) :
    (p.barcode = item.barcode →
      (add_products db caller [item]).1 = db ∧
      (add_products db caller [item]).2 = .validationFailed
        { successful_count := 0
          failed_count := 1
          validation_errors := [⟨0, barcodeFieldStr, item.barcode, duplicateEntryStr⟩] }) ∧
    (∀ sk, item.sku = some sk → sk ≠ emptyStr → p.sku = some sk →
      (∀ q ∈ db.products, q.barcode ≠ item.barcode) →
      (add_products db caller [item]).1 = db ∧
      (add_products db caller [item]).2 = .validationFailed
        { successful_count := 0
          failed_count := 1
          validation_errors := [⟨0, skuFieldStr, sk, duplicateEntryStr⟩] }) := by
  constructor
  · intro hbar
    have hany : db.products.any (fun q => q.barcode == item.barcode) = true :=
      List.any_eq_true.mpr ⟨p, hp, by simp [hbar]⟩
    unfold add_products
    rw [if_neg (by simp)]
    simp only [addProductsLoop, hany, if_true]
    exact ⟨rfl, rfl⟩
  · intro sk hsk hskne hpsku hnobar
    have hnoany : db.products.any (fun q => q.barcode == item.barcode) = false := by
      rw [List.any_eq_false]
      intro q hq
      simp [hnobar q hq]
    have h1 : pyTruthy item.sku = true := by
      rw [hsk]
      simpa [pyTruthy] using hskne
    have h2 : db.products.any (fun q => q.sku == item.sku) = true :=
      List.any_eq_true.mpr ⟨p, hp, by simp [hpsku, hsk]⟩
    unfold add_products
    rw [if_neg (by simp)]
    simp only [addProductsLoop, hnoany, Bool.false_eq_true, if_false, h1, h2,
      Bool.true_and, if_true]
    rw [hsk]
    exact ⟨rfl, rfl⟩

/-- Witness for C10 on concrete data: a product of tenant 99999 with
barcode B1 blocks the caller of tenant 20000 from adding an item with that
barcode. -/
theorem C10_witness :
    (add_products { dbIso with products := [⟨1, "99999", some "PRD1", "Other", "B1", none⟩] }
      callerA [⟨"New", "B1", none⟩]).1 =
      { dbIso with products := [⟨1, "99999", some "PRD1", "Other", "B1", none⟩] } ∧
    (add_products { dbIso with products := [⟨1, "99999", some "PRD1", "Other", "B1", none⟩] }
      callerA [⟨"New", "B1", none⟩]).2 = .validationFailed
      { successful_count := 0
        failed_count := 1
        validation_errors := [⟨0, barcodeFieldStr, "B1", duplicateEntryStr⟩] } :=
  (C10_duplicate_checks_global
    { dbIso with products := [⟨1, "99999", some "PRD1", "Other", "B1", none⟩] }
    callerA ⟨"New", "B1", none⟩ ⟨1, "99999", some "PRD1", "Other", "B1", none⟩
    (by decide)).1 rfl
